import Mathlib

/-!
Verification of the RUKH Static Intelligence Service
(src/services/static-intel/src/main.rs).

The source declares one passive data shape, `Vulnerability`, with three
text fields and derived serialize/deserialize support, and a `main`
function that prints three fixed lines to standard output and exits.

The embedding models `main` as a finite trace of output effects together
with an interpreter producing the stdout text and the exit status, and
models the serde-derived (de)serialization of `Vulnerability` against a
concrete JSON-like textual wire format written from the spec (the source
only derives the capability; no serializer crate is present in src).
-/

/-- The Vulnerability record from the source: three free-form text fields
`severity`, `title`, `description`, in that declaration order. -/
structure Vulnerability where
  severity : String
  title : String
  description : String
deriving DecidableEq

/-- An observable effect at process level: writing a line to standard
output, or blocking on an input read (never emitted by this program, but
present in the effect alphabet so that its absence is a statement). -/
inductive Effect where
  | writeLine : String → Effect
  | readLine : Effect
deriving DecidableEq

/-- The effect trace of the source's `main`: the three `println!` calls,
transliterated in order. -/
def mainEffects : List Effect :=
  [Effect.writeLine "RUKH Static Intelligence Service v0.1.0",
   Effect.writeLine "Author: Volodymyr Stetsenko (Zero2Auditor)",
   Effect.writeLine "Service ready. Waiting for analysis jobs..."]

/-- Interpreter of an effect trace into the produced stdout text; each
written line is terminated by a line break, as `println!` does. -/
def interpret : List Effect → String
  | [] => ""
  | Effect.writeLine s :: es => s ++ "\n" ++ interpret es
  | Effect.readLine :: es => interpret es

/-- The observable result of a process run: its stdout text and its exit
code. -/
structure ProcResult where
  stdout : String
  exitCode : Nat
deriving DecidableEq

/-- A serialization capability for `Vulnerability` (the derived
Serialize/Deserialize pair, abstracted): used to state that the program's
observable behavior does not depend on it. -/
structure SerdeImpl where
  enc : Vulnerability → String
  dec : String → Option Vulnerability

/-- The process semantics of the source, parameterized by the
serialization capability. The Rust `main` reads neither command-line
arguments nor environment variables and never touches `Vulnerability` or
its serialization, so the body uses none of the parameters: it prints the
three lines and returns exit code 0. -/
def runProcessWith (_impl : SerdeImpl) (_args : List String)
    (_env : List (String × String)) : ProcResult :=
  { stdout := interpret mainEffects, exitCode := 0 }

/-- Interpreter of an effect trace in an error-aware semantics: writing
fails when stdout is not writable, and a blocking read fails because no
input is connected. Models the fact that `println!` panics on a broken
stdout and that the program has no input source. -/
def interpretE (writable : Bool) : List Effect → Except String String
  | [] => Except.ok ""
  | Effect.writeLine s :: es =>
    if writable then
      match interpretE writable es with
      | Except.ok out => Except.ok (s ++ "\n" ++ out)
      | Except.error e => Except.error e
    else Except.error "stdout not writable"
  | Effect.readLine :: _ => Except.error "blocked waiting for input"

/-- Modelled from the spec: the concrete wire format of the derived
serialization is absent from src (only the derive attribute is in the
source, no serializer crate); §6 of the spec leaves it to a
general-purpose structured-data convention. We fix a JSON-like one:
a character is escaped in a string literal when it is a quote, a
backslash or a line break. -/
def escChar (c : Char) : List Char :=
  if c = '"' then ['\\', '"']
  else if c = '\\' then ['\\', '\\']
  else if c = '\n' then ['\\', 'n']
  else [c]

/-- Modelled from the spec: escaping of a whole string body. -/
def escape : List Char → List Char
  | [] => []
  | c :: s => escChar c ++ escape s

/-- Modelled from the spec: a quoted string literal of the wire format. -/
def encodeStringLit (s : String) : List Char :=
  '"' :: escape s.data ++ ['"']

/-- Modelled from the spec: one `"key":"value"` field of the wire
format. -/
def encodePairL (p : String × String) : List Char :=
  encodeStringLit p.1 ++ ':' :: encodeStringLit p.2

/-- Modelled from the spec: the comma-separated field list of an
object. -/
def encodePairsCore : List (String × String) → List Char
  | [] => []
  | p :: ps => encodePairL p ++ (if ps.isEmpty then [] else [',']) ++ encodePairsCore ps

/-- Modelled from the spec: a whole object `\x7b...\x7d` of the wire
format, from a named-field list. -/
def encodeFields (fs : List (String × String)) : String :=
  String.mk ('{' :: encodePairsCore fs ++ ['}'])

/-- The field sequence the derived Serialize emits for a `Vulnerability`:
its three fields, in declaration order. -/
def Vulnerability.toFields (v : Vulnerability) : List (String × String) :=
  [("severity", v.severity), ("title", v.title), ("description", v.description)]

/-- Encoding a `Vulnerability` to its structured textual
representation. -/
def Vulnerability.encode (v : Vulnerability) : String :=
  encodeFields v.toFields

/-- Parser of a string-literal body: consumes characters up to the
closing unescaped quote, undoing the escapes; returns the body and the
remaining input, or `none` on malformed input. -/
def parseStrChars : List Char → Option (List Char × List Char)
  | [] => none
  | c :: rest =>
    if c = '"' then some ([], rest)
    else if c = '\\' then
      match rest with
      | [] => none
      | e :: rest2 =>
        match parseStrChars rest2 with
        | some (s, r) =>
          if e = '"' then some ('"' :: s, r)
          else if e = '\\' then some ('\\' :: s, r)
          else if e = 'n' then some ('\n' :: s, r)
          else none
        | none => none
    else
      match parseStrChars rest with
      | some (s, r) => some (c :: s, r)
      | none => none

/-- Parser of a quoted string literal, opening quote included. -/
def parseQuoted (l : List Char) : Option (List Char × List Char) :=
  match l with
  | [] => none
  | c :: r => if c = '"' then parseStrChars r else none

/-- Parser of one `"key":"value"` field. -/
def parsePair (l : List Char) : Option ((String × String) × List Char) :=
  match parseQuoted l with
  | none => none
  | some (k, r1) =>
    match r1 with
    | [] => none
    | c :: r2 =>
      if c = ':' then
        match parseQuoted r2 with
        | none => none
        | some (v, r3) => some ((String.mk k, String.mk v), r3)
      else none

/-- Parser of a comma-separated nonempty field sequence; `fuel` bounds the
recursion depth (one unit per field suffices). -/
def parsePairs : Nat → List Char → Option (List (String × String) × List Char)
  | 0, _ => none
  | fuel + 1, l =>
    match parsePair l with
    | none => none
    | some (p, r) =>
      match r with
      | [] => some ([p], [])
      | c :: r2 =>
        if c = ',' then
          match parsePairs fuel r2 with
          | some (ps, r3) => some (p :: ps, r3)
          | none => none
        else some ([p], r)

/-- Parser of one object of the wire format. -/
def parseObj (l : List Char) : Option (List (String × String) × List Char) :=
  match l with
  | [] => none
  | c :: r =>
    if c = '{' then
      match r with
      | [] => none
      | c2 :: r2 =>
        if c2 = '}' then some ([], r2)
        else
          match parsePairs (r.length + 1) r with
          | some (ps, r3) =>
            match r3 with
            | [] => none
            | c4 :: r4 => if c4 = '}' then some (ps, r4) else none
          | none => none
    else none

/-- Decoding a structured textual representation into its named-field
list; fails on malformed input or trailing garbage. -/
def decodeFields (s : String) : Option (List (String × String)) :=
  match parseObj s.data with
  | some (fs, rest) => if rest.isEmpty then some fs else none
  | none => none

/-- First value bound to key `k` in a field list, if any. -/
def lookupField (k : String) : List (String × String) → Option String
  | [] => none
  | (k2, v) :: rest => if k2 = k then some v else lookupField k rest

/-- What the derived Deserialize does with a parsed field list: each of
the three declared fields is required (missing field is an error), any
other field is ignored, and no value is validated. -/
def fromFields (fs : List (String × String)) : Option Vulnerability :=
  match lookupField "severity" fs, lookupField "title" fs,
      lookupField "description" fs with
  | some sev, some t, some d => some ⟨sev, t, d⟩
  | _, _, _ => none

/-- Decoding a structured textual representation into a
`Vulnerability`. -/
def Vulnerability.decode (s : String) : Option Vulnerability :=
  match decodeFields s with
  | some fs => fromFields fs
  | none => none

theorem String_mk_data (s : String) : String.mk s.data = s := rfl

theorem parseStrChars_escape (s : List Char) (rest : List Char) :
    parseStrChars (escape s ++ '"' :: rest) = some (s, rest) := by
  induction s with
  | nil =>
    rw [show escape [] ++ '"' :: rest = '"' :: rest by simp [escape]]
    rw [parseStrChars.eq_def]
    simp
  | cons c s ih =>
    by_cases h1 : c = '"'
    · subst h1
      rw [show escape ('"' :: s) ++ '"' :: rest
          = '\\' :: '"' :: (escape s ++ '"' :: rest) by simp [escape, escChar]]
      rw [parseStrChars.eq_def]
      simp [ih]
    · by_cases h2 : c = '\\'
      · subst h2
        rw [show escape ('\\' :: s) ++ '"' :: rest
            = '\\' :: '\\' :: (escape s ++ '"' :: rest) by simp [escape, escChar]]
        rw [parseStrChars.eq_def]
        simp [ih]
      · by_cases h3 : c = '\n'
        · subst h3
          rw [show escape ('\n' :: s) ++ '"' :: rest
              = '\\' :: 'n' :: (escape s ++ '"' :: rest) by simp [escape, escChar]]
          rw [parseStrChars.eq_def]
          simp [ih]
        · rw [show escape (c :: s) ++ '"' :: rest
              = c :: (escape s ++ '"' :: rest) by simp [escape, escChar, h1, h2, h3]]
          rw [parseStrChars.eq_def]
          simp [ih, h1, h2]

theorem parseQuoted_encodeStringLit (s : String) (rest : List Char) :
    parseQuoted (encodeStringLit s ++ rest) = some (s.data, rest) := by
  simp [encodeStringLit, parseQuoted, parseStrChars_escape]

theorem parsePair_encodePairL (p : String × String) (rest : List Char) :
    parsePair (encodePairL p ++ rest) = some (p, rest) := by
  have h1 : encodePairL p ++ rest
      = encodeStringLit p.1 ++ (':' :: (encodeStringLit p.2 ++ rest)) := by
    simp [encodePairL]
  rw [h1]
  simp [parsePair, parseQuoted_encodeStringLit, String_mk_data]

theorem encodePairL_shape (p : String × String) :
    encodePairL p = '"' :: (escape p.1.data ++ '"' :: ':' :: encodeStringLit p.2) := by
  simp [encodePairL, encodeStringLit]

theorem length_le_encodePairsCore (fs : List (String × String)) :
    fs.length ≤ (encodePairsCore fs).length := by
  induction fs with
  | nil => simp [encodePairsCore]
  | cons p ps ih =>
    simp [encodePairsCore, encodePairL_shape]
    omega

theorem parsePairs_encode (fs : List (String × String)) (fuel : Nat) (rest : List Char)
    (hne : fs ≠ []) (hfuel : fs.length ≤ fuel) :
    parsePairs fuel (encodePairsCore fs ++ '}' :: rest) = some (fs, '}' :: rest) := by
  induction fs generalizing fuel rest with
  | nil => exact absurd rfl hne
  | cons p ps ih =>
    obtain ⟨f, rfl⟩ : ∃ f, fuel = f + 1 := ⟨fuel - 1, by simp at hfuel; omega⟩
    cases ps with
    | nil =>
      rw [show encodePairsCore [p] ++ '}' :: rest = encodePairL p ++ '}' :: rest by
        simp [encodePairsCore]]
      rw [parsePairs.eq_def]
      simp [parsePair_encodePairL]
    | cons q ps2 =>
      rw [show encodePairsCore (p :: q :: ps2) ++ '}' :: rest
          = encodePairL p ++ ',' :: (encodePairsCore (q :: ps2) ++ '}' :: rest) by
        simp [encodePairsCore]]
      rw [parsePairs.eq_def]
      have hih := ih f rest (by simp) (by simp at hfuel ⊢; omega)
      simp [parsePair_encodePairL, hih]

theorem decodeFields_encodeFields (fs : List (String × String)) :
    decodeFields (encodeFields fs) = some fs := by
  cases fs with
  | nil => rfl
  | cons p ps =>
    have hr : encodePairsCore (p :: ps) ++ ['}']
        = '"' :: ((escape p.1.data ++ '"' :: ':' :: encodeStringLit p.2)
          ++ (if ps.isEmpty then [] else [',']) ++ encodePairsCore ps ++ ['}']) := by
      simp [encodePairsCore, encodePairL_shape]
    have hdata : (encodeFields (p :: ps)).data
        = '{' :: (encodePairsCore (p :: ps) ++ ['}']) := rfl
    have hpp := parsePairs_encode (p :: ps)
      ((encodePairsCore (p :: ps)).length + 1 + 1) []
      (by simp)
      (by
        have h := length_le_encodePairsCore (p :: ps)
        simp at h ⊢
        omega)
    rw [decodeFields.eq_def, hdata, parseObj.eq_def, hr]
    simp only [List.cons.injEq]
    rw [← hr]
    simp [hpp]

/-- The serialization capability the source actually derives for
`Vulnerability`. -/
def serdeDerived : SerdeImpl :=
  { enc := Vulnerability.encode, dec := Vulnerability.decode }

/-- The process as shipped: `runProcessWith` at the derived
serialization capability. -/
def runProcess (args : List String) (env : List (String × String)) : ProcResult :=
  runProcessWith serdeDerived args env

/-- The process under the error-aware interpreter: fails if stdout is not
writable, succeeds with the printed text and exit code 0 otherwise. -/
def runProcessE (writable : Bool) (_args : List String)
    (_env : List (String × String)) : Except String ProcResult :=
  match interpretE writable mainEffects with
  | Except.ok out => Except.ok { stdout := out, exitCode := 0 }
  | Except.error e => Except.error e

theorem fromFields_toFields (v : Vulnerability) :
    fromFields (Vulnerability.toFields v) = some v := rfl

/-- Claim C1: invoked with no arguments, the process writes to standard
output exactly the three fixed lines, in order, each terminated by a line
break and nothing else, and exits successfully. -/
theorem startup_output_exact :
    (runProcess [] []).stdout
      = "RUKH Static Intelligence Service v0.1.0\nAuthor: Volodymyr Stetsenko (Zero2Auditor)\nService ready. Waiting for analysis jobs...\n"
    ∧ (runProcess [] []).exitCode = 0 := by
  constructor
  · decide
  · rfl

/-- Claim C2: for all text values of the three fields, including empty
strings and strings with quotes or line breaks, encoding a
`Vulnerability` and decoding the result yields a value with identical
field contents. -/
theorem vulnerability_roundtrip (v : Vulnerability) :
    Vulnerability.decode (Vulnerability.encode v) = some v := by
  unfold Vulnerability.decode Vulnerability.encode
  rw [decodeFields_encodeFields]
  exact fromFields_toFields v

/-- Claim C3: every invocation terminates with a successful status after
exactly the three print effects; the effect trace is finite and contains
no blocking input wait, so there is no event loop or long-running
behavior. -/
theorem terminates_successfully (args : List String)
    (env : List (String × String)) :
    (runProcess args env).exitCode = 0
    ∧ mainEffects.count Effect.readLine = 0
    ∧ mainEffects.length = 3 := by
  refine ⟨rfl, by decide, rfl⟩

/-- Claim C4: the program reads no inputs; any two invocations, whatever
arguments and environment are supplied, have identical observable
behavior (stdout and exit status). -/
theorem behavior_input_independent (args1 : List String)
    (env1 : List (String × String)) (args2 : List String)
    (env2 : List (String × String)) :
    runProcess args1 env1 = runProcess args2 env2 := rfl

/-- Claim C5: encoding never fails and performs no validation: every
choice of text values for the three fields, empty strings included, is
accepted unchanged, and the produced representation decodes back to
exactly those named values. -/
theorem encode_total_unvalidated (sev t d : String) :
    decodeFields (Vulnerability.encode ⟨sev, t, d⟩)
      = some [("severity", sev), ("title", t), ("description", d)] :=
  decodeFields_encodeFields [("severity", sev), ("title", t), ("description", d)]

/-- Claim C6: since no field is optional, decoding a structured
representation lacking any one of the three fields fails rather than
defaulting the field. -/
theorem decode_missing_field_fails (fs : List (String × String))
    (h : lookupField "severity" fs = none ∨ lookupField "title" fs = none
      ∨ lookupField "description" fs = none) :
    Vulnerability.decode (encodeFields fs) = none := by
  unfold Vulnerability.decode
  rw [decodeFields_encodeFields]
  unfold fromFields
  cases hs : lookupField "severity" fs <;>
    cases ht : lookupField "title" fs <;>
      cases hd : lookupField "description" fs <;>
        simp_all

/-- Witness for C6: a representation carrying only severity and title
(description absent) is rejected by the decoder. -/
theorem decode_missing_field_fails_witness :
    Vulnerability.decode (encodeFields [("severity", "high"), ("title", "t")])
      = none :=
  decode_missing_field_fails [("severity", "high"), ("title", "t")]
    (Or.inr (Or.inr (by decide)))

/-- Claim C9: decoding a representation that carries the three required
fields plus unknown fields succeeds, the unknown fields being silently
ignored. -/
theorem decode_ignores_unknown_fields (fs : List (String × String))
    (sev t d : String)
    (h1 : lookupField "severity" fs = some sev)
    (h2 : lookupField "title" fs = some t)
    (h3 : lookupField "description" fs = some d) :
    Vulnerability.decode (encodeFields fs) = some ⟨sev, t, d⟩ := by
  unfold Vulnerability.decode
  rw [decodeFields_encodeFields]
  show fromFields fs = some ⟨sev, t, d⟩
  unfold fromFields
  rw [h1, h2, h3]

/-- Witness for C9: a representation with an extra unknown field `tool`
decodes to the vulnerability built from the three known fields. -/
theorem decode_ignores_unknown_fields_witness :
    Vulnerability.decode (encodeFields
        [("severity", "high"), ("tool", "rukh"), ("title", "t"), ("description", "d")])
      = some ⟨"high", "t", "d"⟩ :=
  decode_ignores_unknown_fields
    [("severity", "high"), ("tool", "rukh"), ("title", "t"), ("description", "d")]
    "high" "t" "d" (by decide) (by decide) (by decide)

/-- Claim C10: encoding is deterministic in the field values — two
vulnerabilities with the same severity, title and description encode to
the identical text — and emits the fields in declaration order:
severity, then title, then description. -/
theorem encode_deterministic_declaration_order (v w : Vulnerability)
    (h1 : v.severity = w.severity) (h2 : v.title = w.title)
    (h3 : v.description = w.description) :
    Vulnerability.encode v = Vulnerability.encode w
    ∧ Vulnerability.encode v
      = encodeFields [("severity", v.severity), ("title", v.title),
          ("description", v.description)] := by
  obtain ⟨vs, vt, vd⟩ := v
  obtain ⟨ws, wt, wd⟩ := w
  simp_all
  rfl

/-- Witness for C10: evaluated at two equal-field concrete values. -/
theorem encode_deterministic_declaration_order_witness :
    Vulnerability.encode ⟨"high", "t", "d"⟩ = Vulnerability.encode ⟨"high", "t", "d"⟩
    ∧ Vulnerability.encode ⟨"high", "t", "d"⟩
      = encodeFields [("severity", "high"), ("title", "t"), ("description", "d")] :=
  encode_deterministic_declaration_order ⟨"high", "t", "d"⟩ ⟨"high", "t", "d"⟩
    rfl rfl rfl

/-- Claim C7: the startup reporting cannot fail: whenever standard output
is writable (the normal operating condition), the error-aware run takes
no error branch and produces exactly the shipped behavior. -/
theorem startup_cannot_fail (args : List String)
    (env : List (String × String)) (writable : Bool)
    (h : writable = true) :
    runProcessE writable args env = Except.ok (runProcess args env) := by
  subst h
  rfl

/-- Witness for C7: the error-aware run with writable stdout at a
concrete invocation. -/
theorem startup_cannot_fail_witness :
    runProcessE true [] [] = Except.ok (runProcess [] []) :=
  startup_cannot_fail [] [] true rfl

/-- Claim C8: no executed code path involves the `Vulnerability` shape:
the observable behavior of the process is the same under every
serialization capability, in particular under the derived one. -/
theorem behavior_independent_of_vulnerability (impl : SerdeImpl)
    (args : List String) (env : List (String × String)) :
    runProcessWith impl args env = runProcess args env := rfl
